import Mathlib

/-!
Verification of the SQL execution bridge (`execute_sql`) of the diary_quest
desktop application, `apps/desktop/src-tauri/src/main.rs`.

The bridge receives a database path, a query string and a list of JSON
parameter values, opens a fresh SQLite connection, converts the JSON values
to bound parameters, prepares the statement, classifies it as a read
(SELECT) or write by keyword sniffing on the trimmed upper-cased text, and
either materializes rows (read path) or executes and reports the affected
count plus the last insert rowid (write path).

The SQLite engine itself is out of scope of the repository; it is modelled
as an oracle (`Engine`) supplying the outcome of each engine call
(`Connection::open`, `conn.prepare`, `stmt.query_map` plus row iteration,
`stmt.execute`, `conn.last_insert_rowid`). The bridge logic — value
conversion, classification, row materialization, error wrapping — is
translated from the source.

Floating-point values are carried opaquely (`F64`, an uninterpreted bit
pattern): no claim in scope depends on IEEE-754 arithmetic or formatting,
only on which *kind* of value is produced.
-/

namespace DiaryQuest

/-- Opaque carrier for Rust `f64` values. The claims verified here depend
only on where `f64` values flow, never on their arithmetic, so the payload
is an uninterpreted bit pattern. -/
structure F64 where
  bits : Nat
deriving DecidableEq, Repr

/-- Abstract model of the lossy `i64`/`u64` → `f64` cast performed by
serde_json's `Number::as_f64` on integer-backed numbers. The claims never
inspect the resulting value, only its kind. -/
def F64.ofInt (i : Int) : F64 :=
  ⟨2 * i.natAbs + (if i < 0 then 1 else 0)⟩

/-- Rust `f64::is_finite`, read off the IEEE-754 binary64 bit pattern: a
double is non-finite (NaN or ±infinity) exactly when its 11 exponent bits
are all ones. serde_json's `Number::from_f64` — invoked by `json!(f)` —
consults this and yields a number only for finite values. -/
def F64.isFinite (f : F64) : Bool :=
  (f.bits / 2 ^ 52) % 2 ^ 11 != 2047

/-- The bit pattern of `+∞` in IEEE-754 binary64 (exponent bits all ones,
mantissa zero): the value SQLite delivers for an overflowing REAL such as
`SELECT 9e999`. -/
def f64PosInf : F64 :=
  ⟨2047 * 2 ^ 52⟩

/-- serde_json's `Number`: backed by a `u64` (non-negative), an `i64`
(negative), or an `f64`. -/
inductive JsonNum where
  | posInt (n : Nat)
  | negInt (i : Int)
  | float (f : F64)
deriving DecidableEq, Repr

/-- Largest `i64` value. -/
def i64Max : Int := 9223372036854775807

/-- serde_json `Number::as_i64`: some exactly when the number is an
integer representable as `i64` (floats never; `u64` values above
`i64::MAX` never). -/
def JsonNum.as_i64 : JsonNum → Option Int
  | .posInt n => if (n : Int) ≤ i64Max then some n else none
  | .negInt i => some i
  | .float _ => none

/-- serde_json `Number::as_f64`: always succeeds (integer-backed numbers
are cast, float-backed returned as-is). -/
def JsonNum.as_f64 : JsonNum → Option F64
  | .posInt n => some (F64.ofInt n)
  | .negInt i => some (F64.ofInt i)
  | .float f => some f

/-- Decimal rendering of a serde_json number (`Number`'s `Display`).
Float formatting is abstracted (the opaque bit pattern is shown); no claim
depends on the float text. -/
def JsonNum.render : JsonNum → String
  | .posInt n => Nat.repr n
  | .negInt i => "-" ++ Nat.repr i.natAbs
  | .float f => "f64#" ++ Nat.repr f.bits

/-- serde_json `Value`. -/
inductive Json where
  | null
  | bool (b : Bool)
  | num (n : JsonNum)
  | str (s : String)
  | arr (elems : List Json)
  | obj (fields : List (String × Json))
deriving Repr

/-- JSON string escaping used by serde_json's compact `Display` (the
`\u00XX` form for other control characters is abstracted away; no claim
depends on the exact escape text). -/
def escapeChar (c : Char) : String :=
  if c = '"' then "\\\""
  else if c = '\\' then "\\\\"
  else if c = '\n' then "\\n"
  else if c = '\t' then "\\t"
  else if c = '\r' then "\\r"
  else String.singleton c

def escapeString (s : String) : String :=
  String.join (s.data.map escapeChar)

mutual

/-- Compact serialization of a JSON value: serde_json's `Display`, used by
`v.to_string()` in the source. -/
def Json.render : Json → String
  | .null => "null"
  | .bool true => "true"
  | .bool false => "false"
  | .num n => JsonNum.render n
  | .str s => "\"" ++ escapeString s ++ "\""
  | .arr xs => "[" ++ Json.renderList xs ++ "]"
  | .obj fs => "\x7b" ++ Json.renderFields fs ++ "\x7d"

def Json.renderList : List Json → String
  | [] => ""
  | [x] => Json.render x
  | x :: xs => Json.render x ++ "," ++ Json.renderList xs

def Json.renderFields : List (String × Json) → String
  | [] => ""
  | [(k, v)] => "\"" ++ escapeString k ++ "\":" ++ Json.render v
  | (k, v) :: fs => "\"" ++ escapeString k ++ "\":" ++ Json.render v ++ "," ++ Json.renderFields fs

end

/-- `rusqlite::types::Value`: a native SQLite value. -/
inductive SqlValue where
  | null
  | integer (i : Int)
  | real (f : F64)
  | text (s : String)
  | blob (bytes : List Nat)
deriving DecidableEq, Repr

/-- The bound-parameter representation produced by the `match` over the
JSON value in `execute_sql` (lines 110-126): which `Box<dyn ToSql>` is
created. -/
inductive BoundParam where
  | text (s : String)
  | integer (i : Int)
  | real (f : F64)
  | boolean (b : Bool)
  | null
deriving DecidableEq, Repr

/-- Lines 108-127: conversion of one `serde_json::Value` to its bound
representation. Strings bind as text; numbers via `as_i64` then `as_f64`
then a decimal-string fallback; booleans as booleans; null as the null
marker; anything else (arrays, objects) is serialized with `to_string`
and bound as text. -/
def jsonToBound (v : Json) : BoundParam :=
  match v with
  | .str s => .text s
  | .num n =>
    match n.as_i64 with
    | some i => .integer i
    | none =>
      match n.as_f64 with
      | some f => .real f
      | none => .text n.render
  | .bool b => .boolean b
  | .null => .null
  | .arr xs => .text (Json.render (.arr xs))
  | .obj fs => .text (Json.render (.obj fs))

/-- Lines 147-153: conversion of a native SQLite value to the JSON value
stored in a result row. `Real` goes through `serde_json::json!(f)`, i.e.
`Number::from_f64`, which produces a number only for finite values and
JSON null for NaN/±infinity; blobs are coerced to null. -/
def sqlValueToJson : SqlValue → Json
  | .null => .null
  | .integer i => .num (if 0 ≤ i then .posInt i.toNat else .negInt i)
  | .real f => if f.isFinite then .num (.float f) else .null
  | .text s => .str s
  | .blob _ => .null

/-- Rust `str::trim`: drop whitespace characters from both ends
(`Char.isWhitespace` models `char::is_whitespace`; identical on ASCII). -/
def rustTrim (s : String) : String :=
  ⟨((s.data.dropWhile Char.isWhitespace).reverse.dropWhile Char.isWhitespace).reverse⟩

/-- Rust `str::to_uppercase`, modelled by per-character ASCII upcasing
(Rust's full Unicode uppercasing agrees on ASCII, which is all the
keyword check can distinguish). -/
def rustToUppercase (s : String) : String :=
  ⟨s.data.map Char.toUpper⟩

/-- Rust `str::starts_with` with a string pattern: prefix test. -/
def rustStartsWith (s pre : String) : Bool :=
  pre.data.isPrefixOf s.data

/-- Line 135: `query.trim().to_uppercase().starts_with("SELECT")`. -/
def isSelectQuery (query : String) : Bool :=
  rustStartsWith (rustToUppercase (rustTrim query)) "SELECT"

/-- A materialized result row: the `HashMap<String, serde_json::Value>`
built per row, represented as an association list with at most one entry
per key (insertion order is irrelevant to a hash map's semantics; only
lookup content matters). -/
abbrev RowMap := List (String × Json)

/-- One raw row as delivered by the engine: for each column index, the
outcome of `row.get(i)` (rusqlite's `Row::get` is fallible). -/
abbrev RawRow := List (Except String SqlValue)

/-- A prepared statement's observable metadata: `column_name(i)` for each
`i < column_count()` (`none` models a name that cannot be obtained, the
`Err` case the source handles with `unwrap_or("")`). -/
structure PreparedStmt where
  columnNames : List (Option String)
deriving Repr

/-- The SQLite engine as an oracle for one `execute_sql` call: the outcome
of each engine operation the bridge invokes. `queryRun` models
`stmt.query_map` plus row iteration: the outer error is `query_map`
failing (e.g. parameter binding), the inner list is the iterator's steps,
each either a step error (surfaced at `collect`) or a raw row. -/
structure Engine where
  openConn : String → Except String Unit
  prepare : String → Except String PreparedStmt
  queryRun : PreparedStmt → List BoundParam → Except String (List (Except String RawRow))
  execRun : PreparedStmt → List BoundParam → Except String Nat
  lastInsertRowid : Int

/-- The `QueryResult` struct (lines 15-22): the envelope returned to the
caller. -/
structure QueryResult where
  rows : List RowMap
  rows_affected : Nat
  last_insert_id : Option Int

/-- `HashMap::insert` on the association-list representation: overwrite
the entry for the key if present (a built row never holds a key twice),
otherwise add one. -/
def mapInsert (m : RowMap) (k : String) (v : Json) : RowMap :=
  match m with
  | [] => [(k, v)]
  | (k', v') :: rest => if k' = k then (k, v) :: rest else (k', v') :: mapInsert rest k v

/-- Lookup in a materialized row. -/
def rowLookup (m : RowMap) (k : String) : Option Json :=
  match m with
  | [] => none
  | (k', v) :: rest => if k' = k then some v else rowLookup rest k

/-- Number of entries a key has in a materialized row. -/
def keyCount (m : RowMap) (k : String) : Nat :=
  match m with
  | [] => 0
  | (k', _) :: rest => (if k' = k then 1 else 0) + keyCount rest k

/-- Line 146: `row.get(i)`; an out-of-range index is the engine-level
`Err(InvalidColumnIndex)`. -/
def rowGet (row : RawRow) (i : Nat) : Except String SqlValue :=
  (row[i]?).getD (.error "Invalid column index")

/-- Lines 146-153: the value stored for column `i`:
`row.get(i).unwrap_or(Null)` converted to JSON. -/
def cellValue (row : RawRow) (i : Nat) : Json :=
  sqlValueToJson (match rowGet row i with | .ok v => v | .error _ => SqlValue.null)

/-- Lines 143-155: the loop `for (i, name) in column_names.iter().enumerate()`
inserting each column's converted value into the row map, starting from
index `i` with accumulator `m`. -/
def buildRow (row : RawRow) : Nat → List String → RowMap → RowMap
  | _, [], m => m
  | i, name :: rest, m => buildRow row (i + 1) rest (mapInsert m name (cellValue row i))

/-- The closure passed to `query_map`: materialize one raw row into a
`RowMap` keyed by the effective column names. -/
def materializeRow (names : List String) (row : RawRow) : RowMap :=
  buildRow row 0 names []

/-- Lines 136-139: `column_name(i).unwrap_or("")` for each column. -/
def effectiveColumnNames (stmt : PreparedStmt) : List String :=
  stmt.columnNames.map (fun o => o.getD "")

/-- Lines 141-160 tail: `collect::<Result<Vec<_>, _>>()` over the mapped
row iterator — the first step error aborts, otherwise every raw row is
materialized in order. -/
def collectRows (names : List String) : List (Except String RawRow) → Except String (List RowMap)
  | [] => .ok []
  | .error e :: _ => .error e
  | .ok r :: rest =>
    match collectRows names rest with
    | .error e => .error e
    | .ok rs => .ok (materializeRow names r :: rs)

/-- Lines 136-166: the SELECT branch (`column_names` is computed from the
prepared statement before `query_map`; the computation is pure, so it is
inlined at its use site). -/
def readPath (eng : Engine) (stmt : PreparedStmt) (params : List BoundParam) :
    Except String QueryResult :=
  match eng.queryRun stmt params with
  | .error e => .error ("Query failed: " ++ e)
  | .ok steps =>
    match collectRows (effectiveColumnNames stmt) steps with
    | .error e => .error ("Failed to collect rows: " ++ e)
    | .ok rows => .ok ⟨rows, 0, none⟩

/-- Lines 167-177: the non-SELECT branch: `stmt.execute`, then an envelope
with no rows, the affected count, and `Some(conn.last_insert_rowid())`. -/
def writePath (eng : Engine) (stmt : PreparedStmt) (params : List BoundParam) :
    Except String QueryResult :=
  match eng.execRun stmt params with
  | .error e => .error ("Execute failed: " ++ e)
  | .ok n => .ok ⟨[], n, some eng.lastInsertRowid⟩

/-- Lines 99-178: `execute_sql`. Open the connection, convert the JSON
values to bound parameters (the source computes `params` once before
`prepare`; the conversion is pure, so it is inlined at the two use sites),
prepare the original (untrimmed) query text, classify by `isSelectQuery`,
and run the matching branch. Each failure is wrapped with its stage's
prefix and returned immediately. -/
def execute_sql (eng : Engine) (db_path query : String) (values : List Json) :
    Except String QueryResult :=
  match eng.openConn db_path with
  | .error e => .error ("Failed to open database: " ++ e)
  | .ok _ =>
    match eng.prepare query with
    | .error e => .error ("Failed to prepare statement: " ++ e)
    | .ok stmt =>
      if isSelectQuery query then
        readPath eng stmt (values.map jsonToBound)
      else
        writePath eng stmt (values.map jsonToBound)

/-- Replace an engine's run operations, keeping open/prepare and the
last-insert rowid: used to state that a branch never invokes the other
branch's operation. -/
def withRuns (eng : Engine)
    (qr : PreparedStmt → List BoundParam → Except String (List (Except String RawRow)))
    (er : PreparedStmt → List BoundParam → Except String Nat) : Engine :=
  ⟨eng.openConn, eng.prepare, qr, er, eng.lastInsertRowid⟩

/-! ### Concrete engines used by witnesses and counterexamples -/

/-- A healthy engine: the statement declares columns `id`, `name`; a read
yields one row `(1, "Alice")`; a write reports one affected row; the
connection's last insert rowid is `7`. -/
def engDemo : Engine :=
  ⟨fun _ => .ok (), fun _ => .ok ⟨[some "id", some "name"]⟩,
   fun _ _ => .ok [.ok [.ok (.integer 1), .ok (.text "Alice")]],
   fun _ _ => .ok 1, 7⟩

/-- An engine whose `Connection::open` fails. -/
def engOpenFail : Engine :=
  ⟨fun _ => .error "unable to open database file",
   fun _ => .ok ⟨[]⟩, fun _ _ => .ok [], fun _ _ => .ok 0, 0⟩

/-- An engine whose `prepare` fails (malformed SQL). -/
def engPrepFail : Engine :=
  ⟨fun _ => .ok (), fun _ => .error "near \"SELEC\": syntax error",
   fun _ _ => .ok [], fun _ _ => .ok 0, 0⟩

/-- An engine modelling a fresh database executing `CREATE TABLE`:
preparation succeeds with no output columns, execution reports zero
affected rows, and the connection's last insert rowid is still `0`. -/
def engCreate : Engine :=
  ⟨fun _ => .ok (), fun _ => .ok ⟨[]⟩, fun _ _ => .ok [],
   fun _ _ => .ok 0, 0⟩

/-- An engine where `query_map` itself fails (e.g. parameter binding). -/
def engQueryFail : Engine :=
  ⟨fun _ => .ok (), fun _ => .ok ⟨[some "id"]⟩,
   fun _ _ => .error "wrong number of parameters", fun _ _ => .ok 0, 0⟩

/-- An engine whose row iterator yields a step error. -/
def engStepFail : Engine :=
  ⟨fun _ => .ok (), fun _ => .ok ⟨[some "id"]⟩,
   fun _ _ => .ok [.error "database disk image is malformed"],
   fun _ _ => .ok 0, 0⟩

/-- An engine whose `execute` fails (e.g. constraint violation). -/
def engExecFail : Engine :=
  ⟨fun _ => .ok (), fun _ => .ok ⟨[]⟩, fun _ _ => .ok [],
   fun _ _ => .error "UNIQUE constraint failed", 0⟩

/-- An engine that reports a failure retrieving the single column's value
of the single result row (`row.get(0)` returns `Err`). -/
def engBadCell : Engine :=
  ⟨fun _ => .ok (), fun _ => .ok ⟨[some "c"]⟩,
   fun _ _ => .ok [.ok [.error "conversion failure"]],
   fun _ _ => .ok 0, 0⟩

/-! ### Shape lemmas shared by several proofs -/

/-- Inversion of a successful read-path call: what `.ok env` implies. -/
theorem read_ok_shape (eng : Engine) (p q : String) (vs : List Json) (env : QueryResult)
    (hsel : isSelectQuery q = true)
    (h : execute_sql eng p q vs = .ok env) :
    env.rows_affected = 0 ∧ env.last_insert_id = none ∧
    ∃ stmt steps, eng.prepare q = .ok stmt ∧
      eng.queryRun stmt (vs.map jsonToBound) = .ok steps ∧
      collectRows (effectiveColumnNames stmt) steps = .ok env.rows := by
  unfold execute_sql at h
  split at h
  · simp at h
  · split at h
    · simp at h
    · rename_i stmt hprep
      rw [if_pos hsel] at h
      unfold readPath at h
      split at h
      · simp at h
      · rename_i steps hq
        split at h
        · simp at h
        · rename_i rows hc
          injection h with h'
          subst h'
          exact ⟨rfl, rfl, stmt, steps, hprep, hq, hc⟩

/-- Inversion of a successful write-path call: what `.ok env` implies. -/
theorem write_ok_shape (eng : Engine) (p q : String) (vs : List Json) (env : QueryResult)
    (hsel : isSelectQuery q = false)
    (h : execute_sql eng p q vs = .ok env) :
    env.rows = [] ∧ env.last_insert_id = some eng.lastInsertRowid ∧
    ∃ stmt, eng.prepare q = .ok stmt ∧
      eng.execRun stmt (vs.map jsonToBound) = .ok env.rows_affected := by
  unfold execute_sql at h
  split at h
  · simp at h
  · split at h
    · simp at h
    · rename_i stmt hprep
      rw [if_neg (by simp [hsel])] at h
      unfold writePath at h
      split at h
      · simp at h
      · rename_i n hx
        injection h with h'
        subst h'
        exact ⟨rfl, rfl, stmt, hprep, hx⟩

/-- `collectRows` succeeds exactly when no iterator step failed, and then
returns the in-order materialization of every raw row. -/
theorem collectRows_ok_iff (names : List String) (steps : List (Except String RawRow))
    (rows : List RowMap) :
    collectRows names steps = .ok rows ↔
      ∃ raws : List RawRow, steps = raws.map Except.ok ∧
        rows = raws.map (materializeRow names) := by
  induction steps generalizing rows with
  | nil =>
    constructor
    · intro h
      injection h with h'
      exact ⟨[], rfl, h'.symm⟩
    · rintro ⟨raws, hsteps, hrows⟩
      cases raws with
      | nil => simp [collectRows, hrows]
      | cons r rs => simp at hsteps
  | cons s rest ih =>
    cases s with
    | error e =>
      constructor
      · intro h; simp [collectRows] at h
      · rintro ⟨raws, hsteps, hrows⟩
        cases raws with
        | nil => simp at hsteps
        | cons r rs => simp at hsteps
    | ok r =>
      constructor
      · intro h
        unfold collectRows at h
        cases hc : collectRows names rest with
        | error e => rw [hc] at h; simp at h
        | ok rs =>
          rw [hc] at h
          injection h with h'
          obtain ⟨raws, hsteps, hrows⟩ := (ih rs).1 hc
          exact ⟨r :: raws, by simp [hsteps], by simp [h'.symm, hrows]⟩
      · rintro ⟨raws, hsteps, hrows⟩
        cases raws with
        | nil => simp at hsteps
        | cons r' rs =>
          simp at hsteps
          obtain ⟨hr, hrest⟩ := hsteps
          subst hr
          have : collectRows names rest = .ok (rs.map (materializeRow names)) :=
            (ih (rs.map (materializeRow names))).2 ⟨rs, hrest, rfl⟩
          simp [collectRows, this, hrows]

/-- `readPath` depends on the engine only through `queryRun`. -/
theorem readPath_congr (eng eng' : Engine) (stmt : PreparedStmt) (params : List BoundParam)
    (h : eng'.queryRun = eng.queryRun) :
    readPath eng' stmt params = readPath eng stmt params := by
  unfold readPath; rw [h]

/-- `writePath` depends on the engine only through `execRun` and
`lastInsertRowid`. -/
theorem writePath_congr (eng eng' : Engine) (stmt : PreparedStmt) (params : List BoundParam)
    (h1 : eng'.execRun = eng.execRun) (h2 : eng'.lastInsertRowid = eng.lastInsertRowid) :
    writePath eng' stmt params = writePath eng stmt params := by
  unfold writePath; rw [h1, h2]

theorem withRuns_openConn (eng : Engine) (qr) (er) :
    (withRuns eng qr er).openConn = eng.openConn := rfl

theorem withRuns_prepare (eng : Engine) (qr) (er) :
    (withRuns eng qr er).prepare = eng.prepare := rfl

/-! ### Claims -/

/-- Claim C1: a call is classified as a read iff the query text, trimmed
of leading/trailing whitespace, begins case-insensitively with "SELECT"
(conjunct 1); trimming and case folding feed only this classification —
the engine's `prepare` is consulted exactly at the original untrimmed
text, so any engine agreeing there (and on the other operations) yields
the same result (conjunct 2); a read-classified call never invokes the
write branch's `execute` (conjunct 3) and a write-classified call never
invokes the read branch's `query_map` (conjunct 4). -/
theorem execute_sql_select_classification (eng : Engine) (p q : String) (vs : List Json) :
    isSelectQuery q = rustStartsWith (rustToUppercase (rustTrim q)) "SELECT"
    ∧ (∀ eng' : Engine,
        eng'.openConn p = eng.openConn p → eng'.prepare q = eng.prepare q →
        eng'.queryRun = eng.queryRun → eng'.execRun = eng.execRun →
        eng'.lastInsertRowid = eng.lastInsertRowid →
        execute_sql eng' p q vs = execute_sql eng p q vs)
    ∧ (isSelectQuery q = true → ∀ er,
        execute_sql (withRuns eng eng.queryRun er) p q vs = execute_sql eng p q vs)
    ∧ (isSelectQuery q = false → ∀ qr,
        execute_sql (withRuns eng qr eng.execRun) p q vs = execute_sql eng p q vs) := by
  refine ⟨rfl, ?_, ?_, ?_⟩
  · intro eng' h1 h2 h3 h4 h5
    unfold execute_sql
    rw [h1, h2]
    cases eng.openConn p with
    | error e => rfl
    | ok u =>
      cases eng.prepare q with
      | error e => rfl
      | ok stmt =>
        show (if isSelectQuery q = true then readPath eng' stmt (vs.map jsonToBound)
                else writePath eng' stmt (vs.map jsonToBound)) =
             (if isSelectQuery q = true then readPath eng stmt (vs.map jsonToBound)
                else writePath eng stmt (vs.map jsonToBound))
        rw [readPath_congr eng eng' stmt _ h3, writePath_congr eng eng' stmt _ h4 h5]
  · intro hsel er
    unfold execute_sql
    rw [withRuns_openConn, withRuns_prepare]
    cases eng.openConn p with
    | error e => rfl
    | ok u =>
      cases eng.prepare q with
      | error e => rfl
      | ok stmt =>
        show (if isSelectQuery q = true then readPath (withRuns eng eng.queryRun er) stmt (vs.map jsonToBound)
                else writePath (withRuns eng eng.queryRun er) stmt (vs.map jsonToBound)) =
             (if isSelectQuery q = true then readPath eng stmt (vs.map jsonToBound)
                else writePath eng stmt (vs.map jsonToBound))
        rw [if_pos hsel, if_pos hsel,
            readPath_congr eng (withRuns eng eng.queryRun er) stmt _ rfl]
  · intro hsel qr
    unfold execute_sql
    rw [withRuns_openConn, withRuns_prepare]
    cases eng.openConn p with
    | error e => rfl
    | ok u =>
      cases eng.prepare q with
      | error e => rfl
      | ok stmt =>
        show (if isSelectQuery q = true then readPath (withRuns eng qr eng.execRun) stmt (vs.map jsonToBound)
                else writePath (withRuns eng qr eng.execRun) stmt (vs.map jsonToBound)) =
             (if isSelectQuery q = true then readPath eng stmt (vs.map jsonToBound)
                else writePath eng stmt (vs.map jsonToBound))
        rw [if_neg (by simp [hsel]), if_neg (by simp [hsel]),
            writePath_congr eng (withRuns eng qr eng.execRun) stmt _ rfl rfl]

/-- Claim C1 witness: a read-classified call (lower-case, padded with
whitespace) is unaffected by replacing the engine's `execute`
operation. -/
theorem execute_sql_select_classification_witness :
    execute_sql (withRuns engDemo engDemo.queryRun (fun _ _ => .error "never")) "db"
        "  select id, name from t " [] =
      execute_sql engDemo "db" "  select id, name from t " [] :=
  (execute_sql_select_classification engDemo "db" "  select id, name from t " []).2.2.1
    (by decide) (fun _ _ => .error "never")

/-- Claim C2: a successful read-classified call returns the in-order
materialization of the raw rows the engine delivered, a zero affected
count, and no last insert id. -/
theorem execute_sql_read_envelope (eng : Engine) (p q : String) (vs : List Json)
    (env : QueryResult)
    (hsel : isSelectQuery q = true)
    (h : execute_sql eng p q vs = .ok env) :
    env.rows_affected = 0 ∧ env.last_insert_id = none ∧
    ∃ (stmt : PreparedStmt) (raws : List RawRow), eng.prepare q = .ok stmt ∧
      eng.queryRun stmt (vs.map jsonToBound) = .ok (raws.map Except.ok) ∧
      env.rows = raws.map (materializeRow (effectiveColumnNames stmt)) := by
  obtain ⟨h1, h2, stmt, steps, hp, hq, hc⟩ := read_ok_shape eng p q vs env hsel h
  obtain ⟨raws, hsteps, hrows⟩ := (collectRows_ok_iff _ _ _).1 hc
  exact ⟨h1, h2, stmt, raws, hp, hsteps ▸ hq, hrows⟩

/-- Claim C2 witness: `SELECT id, name FROM t` on the demo engine. -/
theorem execute_sql_read_envelope_witness :
    (⟨[[("id", Json.num (.posInt 1)), ("name", Json.str "Alice")]], 0, none⟩ :
        QueryResult).rows_affected = 0
    ∧ (⟨[[("id", Json.num (.posInt 1)), ("name", Json.str "Alice")]], 0, none⟩ :
        QueryResult).last_insert_id = none
    ∧ ∃ (stmt : PreparedStmt) (raws : List RawRow),
        engDemo.prepare "SELECT id, name FROM t" = .ok stmt ∧
        engDemo.queryRun stmt ([].map jsonToBound) = .ok (raws.map Except.ok) ∧
        (⟨[[("id", Json.num (.posInt 1)), ("name", Json.str "Alice")]], 0, none⟩ :
          QueryResult).rows = raws.map (materializeRow (effectiveColumnNames stmt)) :=
  execute_sql_read_envelope engDemo "db" "SELECT id, name FROM t" []
    ⟨[[("id", Json.num (.posInt 1)), ("name", Json.str "Alice")]], 0, none⟩
    (by decide) rfl

/-- Claim C3: a successful non-read call returns no rows and the
engine-reported affected count. -/
theorem execute_sql_write_envelope (eng : Engine) (p q : String) (vs : List Json)
    (env : QueryResult)
    (hsel : isSelectQuery q = false)
    (h : execute_sql eng p q vs = .ok env) :
    env.rows = [] ∧
    ∃ stmt, eng.prepare q = .ok stmt ∧
      eng.execRun stmt (vs.map jsonToBound) = .ok env.rows_affected := by
  obtain ⟨h1, _, stmt, hp, hx⟩ := write_ok_shape eng p q vs env hsel h
  exact ⟨h1, stmt, hp, hx⟩

/-- Claim C3 witness: an INSERT on the demo engine. -/
theorem execute_sql_write_envelope_witness :
    (⟨[], 1, some 7⟩ : QueryResult).rows = [] ∧
    ∃ stmt, engDemo.prepare "INSERT INTO t(name) VALUES (?)" = .ok stmt ∧
      engDemo.execRun stmt ([Json.str "Alice"].map jsonToBound) =
        .ok (⟨[], 1, some 7⟩ : QueryResult).rows_affected :=
  execute_sql_write_envelope engDemo "db" "INSERT INTO t(name) VALUES (?)" [Json.str "Alice"]
    ⟨[], 1, some 7⟩ (by decide) rfl

/-- The read path after a successful `query_map`: collect the steps. -/
theorem readPath_collect (eng : Engine) (stmt : PreparedStmt) (params : List BoundParam)
    (steps : List (Except String RawRow))
    (hq : eng.queryRun stmt params = .ok steps) :
    readPath eng stmt params =
      match collectRows (effectiveColumnNames stmt) steps with
      | .error e => .error ("Failed to collect rows: " ++ e)
      | .ok rows => .ok ⟨rows, 0, none⟩ := by
  unfold readPath
  rw [hq]

/-- Once the connection is open and the statement prepared, the call is
the classified branch applied to the converted parameters. -/
theorem execute_sql_after_prepare (eng : Engine) (p q : String) (vs : List Json)
    (stmt : PreparedStmt)
    (ho : eng.openConn p = .ok ()) (hp : eng.prepare q = .ok stmt) :
    execute_sql eng p q vs =
      if isSelectQuery q then readPath eng stmt (vs.map jsonToBound)
      else writePath eng stmt (vs.map jsonToBound) := by
  unfold execute_sql
  rw [ho, hp]

/-- Claim C4 counterexample: on an engine modelling `CREATE TABLE` on a
fresh database (a successful non-insert write), the envelope's
`last_insert_id` is present (`some 0`), not absent. -/
theorem execute_sql_insert_id_counterexample :
    execute_sql engCreate "db" "CREATE TABLE t(id INTEGER PRIMARY KEY, name TEXT)" [] =
      .ok ⟨[], 0, some 0⟩
    ∧ (⟨[], 0, some 0⟩ : QueryResult).last_insert_id ≠ none :=
  ⟨rfl, by simp⟩

/-- Claim C4 (amended): in every successful envelope, `last_insert_id` is
`some (conn.last_insert_rowid())` after any write-classified statement —
including non-insert writes such as CREATE, UPDATE or DELETE, where the
value is merely stale — and `none` after a read-classified statement. -/
theorem execute_sql_insert_id_presence (eng : Engine) (p q : String) (vs : List Json)
    (env : QueryResult) (h : execute_sql eng p q vs = .ok env) :
    (isSelectQuery q = false → env.last_insert_id = some eng.lastInsertRowid)
    ∧ (isSelectQuery q = true → env.last_insert_id = none) := by
  constructor
  · intro hsel; exact (write_ok_shape eng p q vs env hsel h).2.1
  · intro hsel; exact (read_ok_shape eng p q vs env hsel h).2.1

/-- Claim C4 (amended) witness: the INSERT on the demo engine reports the
connection's last insert rowid. -/
theorem execute_sql_insert_id_presence_witness :
    (⟨[], 1, some 7⟩ : QueryResult).last_insert_id = some engDemo.lastInsertRowid :=
  (execute_sql_insert_id_presence engDemo "db" "INSERT INTO t(name) VALUES (?)"
    [Json.str "Alice"] ⟨[], 1, some 7⟩ rfl).1 (by decide)

/-- Claim C5: each parameter value is translated by: string → text,
number with an exact `i64` value → integer, any other number →
floating-point (the further decimal-string fallback of line 119 is
unreachable because `as_f64` always succeeds), boolean → boolean,
null → null marker, and any other value (array, object) → its compact
serialization bound as text; and `execute_sql` hands exactly
`values.map jsonToBound` to the executing branch. -/
theorem jsonToBound_translation (eng : Engine) (p q : String) (vs : List Json)
    (stmt : PreparedStmt) :
    (∀ s, jsonToBound (.str s) = .text s)
    ∧ (∀ n i, JsonNum.as_i64 n = some i → jsonToBound (.num n) = .integer i)
    ∧ (∀ n f, JsonNum.as_i64 n = none → JsonNum.as_f64 n = some f →
        jsonToBound (.num n) = .real f)
    ∧ (∀ b, jsonToBound (.bool b) = .boolean b)
    ∧ (jsonToBound .null = .null)
    ∧ (∀ xs, jsonToBound (.arr xs) = .text (Json.render (.arr xs)))
    ∧ (∀ fs, jsonToBound (.obj fs) = .text (Json.render (.obj fs)))
    ∧ (eng.openConn p = .ok () → eng.prepare q = .ok stmt →
        execute_sql eng p q vs =
          if isSelectQuery q then readPath eng stmt (vs.map jsonToBound)
          else writePath eng stmt (vs.map jsonToBound)) := by
  refine ⟨fun s => rfl, ?_, ?_, fun b => rfl, rfl, fun xs => rfl, fun fs => rfl, ?_⟩
  · intro n i h
    simp [jsonToBound, h]
  · intro n f h1 h2
    simp [jsonToBound, h1, h2]
  · intro ho hp
    exact execute_sql_after_prepare eng p q vs stmt ho hp

/-- Claim C5 witness: an exact-integer number binds as an integer. -/
theorem jsonToBound_translation_witness :
    jsonToBound (.num (.posInt 3)) = .integer 3 :=
  (jsonToBound_translation engDemo "db" "SELECT 1" [] ⟨[]⟩).2.1 (.posInt 3) 3 (by decide)

/-- Characterization of which JSON kinds a result cell can have: only
null, number, or string (never a binary/blob kind, which `Json` cannot
even represent, and never bool/array/object either). -/
def resultKindOk : Json → Bool
  | .null => true
  | .num _ => true
  | .str _ => true
  | .bool _ => false
  | .arr _ => false
  | .obj _ => false

/-- Claim C6 counterexample: a non-finite SQLite REAL — here the
`+∞` bit pattern, the value of e.g. `SELECT 9e999` — does not convert to
a floating-point result value: `json!(f)` yields JSON null for it. -/
theorem sqlValueToJson_nonfinite_counterexample :
    F64.isFinite f64PosInf = false
    ∧ sqlValueToJson (.real f64PosInf) = Json.null
    ∧ Json.null ≠ Json.num (.float f64PosInf) :=
  ⟨by decide, rfl, fun h => Json.noConfusion h⟩

/-- Claim C6 (amended): the read-path cell conversion maps null → null,
integer → integer-valued number (for any value in `i64` range, i.e. any
value an SQLite integer can carry), finite real → float-backed number,
non-finite real (NaN/±infinity) → null (the `Number::from_f64` guard
inside `serde_json::json!`), text → string, and every blob → null; every
converted cell is of a null/number/string kind — never binary. The first
conjunct ties the conversion to the cell builder: a successfully
retrieved value is stored as its conversion. -/
theorem sqlValueToJson_conversion (row : RawRow) (i : Nat) (v : SqlValue) :
    (rowGet row i = .ok v → cellValue row i = sqlValueToJson v)
    ∧ sqlValueToJson .null = .null
    ∧ (∀ k : Int, -(i64Max + 1) ≤ k → k ≤ i64Max →
        ∃ n, sqlValueToJson (.integer k) = .num n ∧ n.as_i64 = some k)
    ∧ (∀ f, F64.isFinite f = true → sqlValueToJson (.real f) = .num (.float f))
    ∧ (∀ f, F64.isFinite f = false → sqlValueToJson (.real f) = .null)
    ∧ (∀ s, sqlValueToJson (.text s) = .str s)
    ∧ (∀ bs, sqlValueToJson (.blob bs) = .null)
    ∧ (∀ w, resultKindOk (sqlValueToJson w) = true) := by
  refine ⟨?_, rfl, ?_, ?_, ?_, fun s => rfl, fun bs => rfl, ?_⟩
  · intro h
    unfold cellValue
    rw [h]
  · intro k h1 h2
    by_cases hk : 0 ≤ k
    · refine ⟨.posInt k.toNat, by simp [sqlValueToJson, hk], ?_⟩
      simp [JsonNum.as_i64, Int.toNat_of_nonneg hk, h2]
    · refine ⟨.negInt k, by simp [sqlValueToJson, hk], rfl⟩
  · intro f hf
    simp [sqlValueToJson, hf]
  · intro f hf
    simp [sqlValueToJson, hf]
  · intro w
    rcases w with _ | k | f | s | bs
    · rfl
    · rfl
    · by_cases hf : F64.isFinite f = true
      · simp [sqlValueToJson, hf, resultKindOk]
      · simp [sqlValueToJson, hf, resultKindOk]
    · rfl
    · rfl

/-- Claim C6 (amended) witness: a blob cell, a negative in-range integer,
and a finite real (the all-zero bit pattern, `0.0`). -/
theorem sqlValueToJson_conversion_witness :
    cellValue [Except.ok (SqlValue.blob [0, 1])] 0 =
      sqlValueToJson (SqlValue.blob [0, 1])
    ∧ (∃ n, sqlValueToJson (.integer (-5)) = .num n ∧ n.as_i64 = some (-5))
    ∧ sqlValueToJson (.real ⟨0⟩) = .num (.float ⟨0⟩) :=
  ⟨(sqlValueToJson_conversion [Except.ok (SqlValue.blob [0, 1])] 0
      (SqlValue.blob [0, 1])).1 rfl,
   (sqlValueToJson_conversion [] 0 SqlValue.null).2.2.1 (-5) (by decide) (by decide),
   (sqlValueToJson_conversion [] 0 SqlValue.null).2.2.2.1 ⟨0⟩ (by decide)⟩

/-- Claim C7: `execute_sql` always returns — an envelope or a
message-bearing error (conjunct 1); each stage failure is returned
immediately wrapped with its stage's descriptive prefix (conjuncts 2-6),
and once preparation fails nothing is executed: the result is the same
for every `queryRun`/`execRun` the engine could have (conjunct 3
quantifies over them). -/
theorem execute_sql_error_handling (eng : Engine) (p q : String) (vs : List Json) :
    ((∃ env, execute_sql eng p q vs = .ok env) ∨ (∃ msg, execute_sql eng p q vs = .error msg))
    ∧ (∀ e, eng.openConn p = .error e →
        execute_sql eng p q vs = .error ("Failed to open database: " ++ e))
    ∧ (∀ e, eng.openConn p = .ok () → eng.prepare q = .error e → ∀ qr er,
        execute_sql (withRuns eng qr er) p q vs = .error ("Failed to prepare statement: " ++ e))
    ∧ (∀ stmt e, eng.openConn p = .ok () → eng.prepare q = .ok stmt → isSelectQuery q = true →
        eng.queryRun stmt (vs.map jsonToBound) = .error e →
        execute_sql eng p q vs = .error ("Query failed: " ++ e))
    ∧ (∀ stmt steps e, eng.openConn p = .ok () → eng.prepare q = .ok stmt →
        isSelectQuery q = true →
        eng.queryRun stmt (vs.map jsonToBound) = .ok steps →
        collectRows (effectiveColumnNames stmt) steps = .error e →
        execute_sql eng p q vs = .error ("Failed to collect rows: " ++ e))
    ∧ (∀ stmt e, eng.openConn p = .ok () → eng.prepare q = .ok stmt → isSelectQuery q = false →
        eng.execRun stmt (vs.map jsonToBound) = .error e →
        execute_sql eng p q vs = .error ("Execute failed: " ++ e)) := by
  refine ⟨?_, ?_, ?_, ?_, ?_, ?_⟩
  · cases h : execute_sql eng p q vs with
    | error msg => exact .inr ⟨msg, rfl⟩
    | ok env => exact .inl ⟨env, rfl⟩
  · intro e h
    unfold execute_sql
    rw [h]
  · intro e ho hp qr er
    unfold execute_sql
    rw [withRuns_openConn, withRuns_prepare, ho, hp]
  · intro stmt e ho hp hsel hq
    rw [execute_sql_after_prepare eng p q vs stmt ho hp, if_pos hsel]
    unfold readPath
    rw [hq]
  · intro stmt steps e ho hp hsel hq hc
    rw [execute_sql_after_prepare eng p q vs stmt ho hp, if_pos hsel,
        readPath_collect eng stmt (vs.map jsonToBound) steps hq, hc]
  · intro stmt e ho hp hsel hx
    rw [execute_sql_after_prepare eng p q vs stmt ho hp, if_neg (by simp [hsel])]
    unfold writePath
    rw [hx]

/-- Claim C7 witness: each failure stage on a concrete engine. -/
theorem execute_sql_error_handling_witness :
    execute_sql engOpenFail "db" "SELECT 1" [] =
      .error ("Failed to open database: " ++ "unable to open database file")
    ∧ execute_sql engStepFail "db" "SELECT id FROM t" [] =
      .error ("Failed to collect rows: " ++ "database disk image is malformed")
    ∧ execute_sql engExecFail "db" "DELETE FROM t" [] =
      .error ("Execute failed: " ++ "UNIQUE constraint failed") :=
  ⟨(execute_sql_error_handling engOpenFail "db" "SELECT 1" []).2.1
      "unable to open database file" rfl,
   (execute_sql_error_handling engStepFail "db" "SELECT id FROM t" []).2.2.2.2.1
      ⟨[some "id"]⟩ [.error "database disk image is malformed"]
      "database disk image is malformed" rfl rfl (by decide) rfl rfl,
   (execute_sql_error_handling engExecFail "db" "DELETE FROM t" []).2.2.2.2.2
      ⟨[]⟩ "UNIQUE constraint failed" rfl rfl (by decide) rfl⟩

/-- Claim C8 counterexample: the engine reports a failure retrieving the
single column's value of the single row (`row.get(0)` is `Err`), yet the
call succeeds and the cell silently holds null — the row-materialization
failure is not surfaced as an error. -/
theorem cell_failure_counterexample :
    rowGet [Except.error "conversion failure"] 0 = .error "conversion failure"
    ∧ execute_sql engBadCell "db" "SELECT c FROM t" [] =
        .ok ⟨[[("c", Json.null)]], 0, none⟩ :=
  ⟨rfl, rfl⟩

/-- Claim C8 (amended): a failure to retrieve an individual column's value
while building a result row is NOT surfaced: `unwrap_or(Null)` silently
substitutes null for that cell (conjunct 1). Only iterator-level failures
are surfaced: a failed step aborts the collection and is returned with
the "Failed to collect rows" prefix (conjunct 2). -/
theorem cell_failure_nulled (row : RawRow) (i : Nat) (e : String)
    (eng : Engine) (p q : String) (vs : List Json) (stmt : PreparedStmt)
    (steps : List (Except String RawRow)) (e' : String) :
    (rowGet row i = .error e → cellValue row i = Json.null)
    ∧ (eng.openConn p = .ok () → eng.prepare q = .ok stmt → isSelectQuery q = true →
        eng.queryRun stmt (vs.map jsonToBound) = .ok steps →
        collectRows (effectiveColumnNames stmt) steps = .error e' →
        execute_sql eng p q vs = .error ("Failed to collect rows: " ++ e')) := by
  constructor
  · intro h
    unfold cellValue
    rw [h]
    rfl
  · intro ho hp hsel hq hc
    rw [execute_sql_after_prepare eng p q vs stmt ho hp, if_pos hsel,
        readPath_collect eng stmt (vs.map jsonToBound) steps hq, hc]

/-- Claim C8 (amended) witness. -/
theorem cell_failure_nulled_witness :
    cellValue [Except.error "boom"] 0 = Json.null :=
  (cell_failure_nulled [Except.error "boom"] 0 "boom" engDemo "db" "SELECT 1" [] ⟨[]⟩
    [] "x").1 rfl

/-- Claim C9: two executions of the same read-classified query with the
same parameters against the same (unmodified) store — i.e. observing the
same engine behavior — yield identical envelopes: same rows, same zero
affected count, same absent insert id. -/
theorem execute_sql_read_idempotent (eng : Engine) (p q : String) (vs : List Json)
    (env1 env2 : QueryResult)
    (hsel : isSelectQuery q = true)
    (h1 : execute_sql eng p q vs = .ok env1)
    (h2 : execute_sql eng p q vs = .ok env2) :
    env1.rows = env2.rows ∧ env1.rows_affected = env2.rows_affected ∧
    env1.last_insert_id = env2.last_insert_id ∧
    env1.rows_affected = 0 ∧ env1.last_insert_id = none := by
  have he : env1 = env2 := by
    have h12 := h1.symm.trans h2
    injection h12
  cases he
  obtain ⟨ha, hb, -⟩ := read_ok_shape eng p q vs env1 hsel h1
  exact ⟨rfl, rfl, rfl, ha, hb⟩

/-- Claim C9 witness: the demo SELECT, run twice. -/
theorem execute_sql_read_idempotent_witness :
    (⟨[[("id", Json.num (.posInt 1)), ("name", Json.str "Alice")]], 0, none⟩ :
        QueryResult).rows =
      (⟨[[("id", Json.num (.posInt 1)), ("name", Json.str "Alice")]], 0, none⟩ :
        QueryResult).rows
    ∧ (⟨[[("id", Json.num (.posInt 1)), ("name", Json.str "Alice")]], 0, none⟩ :
        QueryResult).rows_affected =
      (⟨[[("id", Json.num (.posInt 1)), ("name", Json.str "Alice")]], 0, none⟩ :
        QueryResult).rows_affected
    ∧ (⟨[[("id", Json.num (.posInt 1)), ("name", Json.str "Alice")]], 0, none⟩ :
        QueryResult).last_insert_id =
      (⟨[[("id", Json.num (.posInt 1)), ("name", Json.str "Alice")]], 0, none⟩ :
        QueryResult).last_insert_id
    ∧ (⟨[[("id", Json.num (.posInt 1)), ("name", Json.str "Alice")]], 0, none⟩ :
        QueryResult).rows_affected = 0
    ∧ (⟨[[("id", Json.num (.posInt 1)), ("name", Json.str "Alice")]], 0, none⟩ :
        QueryResult).last_insert_id = none :=
  execute_sql_read_idempotent engDemo "db" "SELECT id, name FROM t" []
    ⟨[[("id", Json.num (.posInt 1)), ("name", Json.str "Alice")]], 0, none⟩
    ⟨[[("id", Json.num (.posInt 1)), ("name", Json.str "Alice")]], 0, none⟩
    (by decide) rfl rfl

/-! ### Association-map semantics of row materialization (claim C10) -/

/-- `HashMap::insert` semantics at the lookup level: the inserted key maps
to the new value, every other key is untouched. -/
theorem rowLookup_mapInsert (m : RowMap) (k k' : String) (v : Json) :
    rowLookup (mapInsert m k v) k' = if k' = k then some v else rowLookup m k' := by
  induction m with
  | nil =>
    by_cases h : k' = k
    · subst h
      simp [mapInsert, rowLookup]
    · simp [mapInsert, rowLookup, h, Ne.symm h]
  | cons p rest ih =>
    obtain ⟨a, b⟩ := p
    by_cases ha : a = k
    · subst ha
      by_cases h : k' = a
      · subst h
        simp [mapInsert, rowLookup]
      · simp [mapInsert, rowLookup, h, Ne.symm h]
    · by_cases h : a = k'
      · subst h
        simp [mapInsert, rowLookup, ha, fun hh : a = k => ha hh]
      · simp [mapInsert, rowLookup, ha, h, ih]

/-- Inserting one key leaves every other key's entry count unchanged. -/
theorem keyCount_mapInsert_other (m : RowMap) (k k' : String) (v : Json) (h : k' ≠ k) :
    keyCount (mapInsert m k v) k' = keyCount m k' := by
  induction m with
  | nil => simp [mapInsert, keyCount, Ne.symm h]
  | cons p rest ih =>
    obtain ⟨a, b⟩ := p
    by_cases ha : a = k
    · subst ha
      simp [mapInsert, keyCount, Ne.symm h]
    · simp [mapInsert, keyCount, ha, ih]

/-- Inserting a key whose count is at most one keeps it at most one. -/
theorem keyCount_mapInsert_self (m : RowMap) (k : String) (v : Json)
    (h : keyCount m k ≤ 1) :
    keyCount (mapInsert m k v) k ≤ 1 := by
  induction m with
  | nil => simp [mapInsert, keyCount]
  | cons p rest ih =>
    obtain ⟨a, b⟩ := p
    by_cases ha : a = k
    · subst ha
      simpa [mapInsert, keyCount] using h
    · rw [keyCount] at h
      rw [if_neg ha] at h
      simpa [mapInsert, keyCount, ha] using ih (by omega)

/-- `HashMap::insert` keeps at most one entry per key. -/
theorem keyCount_mapInsert_le_one (m : RowMap) (k k' : String) (v : Json)
    (h : keyCount m k' ≤ 1) :
    keyCount (mapInsert m k v) k' ≤ 1 := by
  by_cases he : k' = k
  · subst he
    exact keyCount_mapInsert_self m k' v h
  · rw [keyCount_mapInsert_other m k k' v he]
    exact h

theorem rowLookup_some_keyCount (m : RowMap) (k : String) (w : Json)
    (h : rowLookup m k = some w) : 1 ≤ keyCount m k := by
  induction m with
  | nil => simp [rowLookup] at h
  | cons p rest ih =>
    obtain ⟨a, b⟩ := p
    rw [rowLookup] at h
    by_cases ha : a = k
    · simp [keyCount, ha]
    · rw [if_neg ha] at h
      simpa [keyCount, ha] using ih h

/-- The row builder keeps the at-most-one-entry-per-key invariant. -/
theorem goodMap_buildRow (row : RawRow) (names : List String) (i : Nat) (m : RowMap)
    (h : ∀ k, keyCount m k ≤ 1) :
    ∀ k, keyCount (buildRow row i names m) k ≤ 1 := by
  induction names generalizing i m with
  | nil => exact h
  | cons n rest ih =>
    intro k
    rw [buildRow]
    exact ih (i + 1) _ (fun k' => keyCount_mapInsert_le_one m n k' (cellValue row i) (h k')) k

/-- Index (counted from offset `i`) of the last occurrence of `name`. -/
def lastIdxFrom (name : String) : Nat → List String → Option Nat
  | _, [] => none
  | i, n :: rest =>
    match lastIdxFrom name (i + 1) rest with
    | some j => some j
    | none => if n = name then some i else none

theorem lastIdxFrom_some_occ (name : String) (names : List String) (i j : Nat)
    (h : lastIdxFrom name i names = some j) :
    ∃ t, names[t]? = some name ∧ j = i + t := by
  induction names generalizing i j with
  | nil => simp [lastIdxFrom] at h
  | cons n rest ih =>
    rw [lastIdxFrom] at h
    split at h
    · rename_i j' hL
      injection h with h'
      subst h'
      obtain ⟨t, ht, hj⟩ := ih (i + 1) j' hL
      exact ⟨t + 1, by simpa using ht, by omega⟩
    · rename_i hL
      by_cases hn : n = name
      · rw [if_pos hn] at h
        injection h with h'
        exact ⟨0, by simp [hn], by omega⟩
      · rw [if_neg hn] at h
        exact absurd h (by simp)

theorem lastIdxFrom_none_no_occ (name : String) (names : List String) (i : Nat)
    (h : lastIdxFrom name i names = none) :
    ∀ t : Nat, names[t]? ≠ some name := by
  induction names generalizing i with
  | nil => intro t; simp
  | cons n rest ih =>
    rw [lastIdxFrom] at h
    split at h
    · rename_i j' hL
      exact absurd h (by simp)
    · rename_i hL
      by_cases hn : n = name
      · rw [if_pos hn] at h
        exact absurd h (by simp)
      · intro t
        cases t with
        | zero => simpa using hn
        | succ t' => simpa using ih (i + 1) hL t'

/-- The last occurrence as characterized from outside: an occurrence with
no later occurrence. -/
theorem lastIdxFrom_highest (name : String) (names : List String) (i j : Nat)
    (hj : names[j]? = some name) (hmax : ∀ t : Nat, j < t → names[t]? ≠ some name) :
    lastIdxFrom name i names = some (i + j) := by
  induction names generalizing i j with
  | nil => simp at hj
  | cons n rest ih =>
    rw [lastIdxFrom]
    cases j with
    | zero =>
      have hn : n = name := by simpa using hj
      have hnone : lastIdxFrom name (i + 1) rest = none := by
        cases hL : lastIdxFrom name (i + 1) rest with
        | none => rfl
        | some j' =>
          obtain ⟨t, ht, -⟩ := lastIdxFrom_some_occ name rest (i + 1) j' hL
          exact absurd ht (by simpa using hmax (t + 1) (by omega))
      rw [hnone]
      show (if n = name then some i else none) = some (i + 0)
      rw [if_pos hn]
      congr 1
    | succ j' =>
      have hj' : rest[j']? = some name := by simpa using hj
      have hmax' : ∀ t : Nat, j' < t → rest[t]? ≠ some name := fun t ht => by
        simpa using hmax (t + 1) (by omega)
      rw [ih (i + 1) j' hj' hmax']
      show some ((i + 1) + j') = some (i + (j' + 1))
      congr 1
      omega

/-- Lookup in a built row is the cell of the last occurrence of the key
among the processed names, falling back to the accumulator. -/
theorem rowLookup_buildRow (row : RawRow) (names : List String) (i : Nat) (m : RowMap)
    (name : String) :
    rowLookup (buildRow row i names m) name =
      match lastIdxFrom name i names with
      | some j => some (cellValue row j)
      | none => rowLookup m name := by
  induction names generalizing i m with
  | nil => rfl
  | cons n rest ih =>
    rw [buildRow, ih]
    conv_rhs => rw [lastIdxFrom]
    cases hL : lastIdxFrom name (i + 1) rest with
    | some j => rfl
    | none =>
      by_cases hn : n = name
      · simp [rowLookup_mapInsert, hn]
      · simp [rowLookup_mapInsert, hn, Ne.symm hn]

/-- Claim C10: a materialized row is a map keyed by column name — a name
declared by several output columns has exactly one entry (conjunct 1),
whose value is the cell of the highest-indexed column carrying that name
(conjunct 2, where `j` is an occurrence with no later occurrence), and a
column whose name could not be obtained contributes the empty-string key
(conjunct 3: `column_name(i).unwrap_or("")`). -/
theorem materializeRow_map_semantics (names : List String) (row : RawRow) (name : String)
    (stmt : PreparedStmt) (i : Nat) :
    (name ∈ names → keyCount (materializeRow names row) name = 1)
    ∧ (∀ j : Nat, names[j]? = some name → (∀ t : Nat, j < t → names[t]? ≠ some name) →
        rowLookup (materializeRow names row) name = some (cellValue row j))
    ∧ (stmt.columnNames[i]? = some none → (effectiveColumnNames stmt)[i]? = some "") := by
  refine ⟨?_, ?_, ?_⟩
  · intro hmem
    have hle := goodMap_buildRow row names 0 [] (fun k => by simp [keyCount]) name
    obtain ⟨j, hj⟩ := List.mem_iff_getElem?.1 hmem
    have hsome : ∃ j', lastIdxFrom name 0 names = some j' := by
      cases hL : lastIdxFrom name 0 names with
      | some j' => exact ⟨j', rfl⟩
      | none => exact absurd hj (lastIdxFrom_none_no_occ name names 0 hL j)
    obtain ⟨j', hL⟩ := hsome
    have hlook : rowLookup (materializeRow names row) name = some (cellValue row j') := by
      unfold materializeRow
      rw [rowLookup_buildRow, hL]
    have hge := rowLookup_some_keyCount _ _ _ hlook
    unfold materializeRow at hge ⊢
    omega
  · intro j hj hmax
    unfold materializeRow
    rw [rowLookup_buildRow, lastIdxFrom_highest name names 0 j hj hmax]
    show some (cellValue row (0 + j)) = some (cellValue row j)
    rw [Nat.zero_add]
  · intro h
    unfold effectiveColumnNames
    rw [List.getElem?_map, h]
    rfl

/-- Claim C10 witness: two columns both named `a`; the row map holds one
entry for `a`, valued by the second (highest-indexed) column's cell; and a
`none` column name yields the empty-string key. -/
theorem materializeRow_map_semantics_witness :
    keyCount (materializeRow ["a", "a"] [Except.ok (.integer 1), Except.ok (.integer 2)]) "a" = 1
    ∧ rowLookup (materializeRow ["a", "a"] [Except.ok (.integer 1), Except.ok (.integer 2)]) "a" =
        some (cellValue [Except.ok (.integer 1), Except.ok (.integer 2)] 1)
    ∧ (effectiveColumnNames ⟨[none]⟩)[0]? = some "" :=
  ⟨(materializeRow_map_semantics ["a", "a"] [Except.ok (.integer 1), Except.ok (.integer 2)]
      "a" ⟨[none]⟩ 0).1 (by decide),
   (materializeRow_map_semantics ["a", "a"] [Except.ok (.integer 1), Except.ok (.integer 2)]
      "a" ⟨[none]⟩ 0).2.1 1 rfl
      (fun t ht => by
        have hlen : (["a", "a"] : List String).length ≤ t := by simpa using ht
        simp [List.getElem?_eq_none hlen]),
   (materializeRow_map_semantics ["a", "a"] [Except.ok (.integer 1), Except.ok (.integer 2)]
      "a" ⟨[none]⟩ 0).2.2 rfl⟩

end DiaryQuest
